import Mathlib

/-!
# Verification of the MRIO PM2.5 reporting pipeline (`src/mrio.py`)

Shallow embedding of the pure data path of the script:

* `analyze_pm25_emissions` — row selection by
  `F.index.str.contains(pat, case=False)` (a regular-expression search with
  `re.IGNORECASE`, since pandas defaults to `regex=True`; the only
  metacharacter occurring in the call sites' patterns is `.`, which matches
  any single character) followed by `em_pm25.sum(axis=0)`, a column-wise sum.
* `define_textile_industry` — exact-equality lookup of hard-coded sector
  names in the dataset's sector list (`sector in sectors_list` /
  `sectors_list.index(sector)`).
* `plot_top_pm25` — `s.sort_values(ascending=False).head(top_n)`, then
  `top[::-1]`, label construction, and per-label colouring.
  pandas `Series.sort_values(ascending=False)` is implemented (in
  `pandas.core.sorting.nargsort`) as an ascending `argsort` followed by a
  full reversal of the indexer.  The default `kind='quicksort'` (numpy
  introsort) is documented as NOT stable in general; it degenerates to a
  stable insertion sort only for arrays of at most 16 elements.  The model
  `(insertionSort ascending).reverse` therefore fixes a tie order that the
  program guarantees only in that small-array regime: every conclusion
  that depends on the order of equal values carries an explicit
  `length ≤ 16` hypothesis, and all other conclusions drawn from this
  definition (lengths, value-sortedness, reversal, per-entry maps, frame
  conditions) are invariant under the tie order and hold for any correct
  descending reordering.  pandas `head(n)` is `iloc[:n]`, so a negative
  `n` keeps all but the last `-n` elements.

Values are modelled as rationals, column keys as (region, sector) string
pairs.
-/

namespace Mrio

/-- A (region, sector) column key of the MRIO tables. -/
abbrev Key := String × String

/-- Numeric cell values of the extension account. -/
abbrev Value := ℚ

/-- A pandas `Series` indexed by (region, sector): an ordered list of
key/value pairs (`F_pm25_total` in the script). -/
abbrev Series := List (Key × Value)

/-! ## Row-label matching: `index.str.contains(pat, case=False)`

pandas compiles `pat` as a regular expression (default `regex=True`) with
`re.IGNORECASE` and applies `re.search`, i.e. a match may start at any
position.  We model the pattern class actually used by the script (literal
characters plus the `.` wildcard). -/

/-- One pattern character against one text character under `re.IGNORECASE`:
`.` matches anything, any other character matches up to case. -/
def charMatch (p c : Char) : Bool :=
  p = '.' || p.toLower = c.toLower

/-- Match the whole pattern starting at the head of the text. -/
def matchAt : List Char → List Char → Bool
  | [], _ => true
  | _ :: _, [] => false
  | p :: ps, c :: cs => charMatch p c && matchAt ps cs

/-- `re.search`: try the pattern at every start position. -/
def searchPat (pat : List Char) : List Char → Bool
  | [] => matchAt pat []
  | c :: cs => matchAt pat (c :: cs) || searchPat pat cs

/-- `label.str.contains(pat, case=False)` for one label: case-insensitive
regular-expression search of `pat` (literals and `.`) in `label`. -/
def str_contains (label pat : String) : Bool :=
  searchPat pat.data label.data

/-! ## The extension account and `analyze_pm25_emissions` -/

/-- `em_ext.F`: a DataFrame with one labelled row per pollutant and one
column per (region, sector) pair; every row vector has one entry per
column. -/
structure ExtAccount where
  columns : List Key
  rows : List (String × List Value)
  hrows : ∀ r ∈ rows, r.2.length = columns.length

/-- `df.sum(axis=0)` on a DataFrame with `n` columns: fold the row vectors
into a running column-wise total, starting from the all-zero vector (the
pandas sum of an empty frame is `0.0` in every column). -/
def colSum (n : Nat) (rows : List (List Value)) : List Value :=
  rows.foldl (fun acc r => acc.zipWith (· + ·) r) (List.replicate n 0)

/-- `analyze_pm25_emissions`: build the boolean mask
`F.index.str.contains(frag, case=False)`, select the matching rows
(`em_pm25 = F.loc[mask]`), and total them column-wise
(`F_pm25_total = em_pm25.sum(axis=0)`).  Returns the matched sub-table and
the totals series, as the script does.  The script hard-codes
`frag = "PM2.5"`; the fragment is a parameter here. -/
def analyze_pm25_emissions (acc : ExtAccount) (frag : String) :
    List (String × List Value) × Series :=
  let em_pm25 := acc.rows.filter (fun row => str_contains row.1 frag)
  let F_pm25_total := colSum acc.columns.length (em_pm25.map Prod.snd)
  (em_pm25, acc.columns.zip F_pm25_total)

/-- The no-match signal: the returned matched sub-table (`em_pm25`, whose
row count the script also prints) is empty.  This is the observable that
lets a caller distinguish "no pollutant found" from "all totals zero". -/
def NoMatchWarning (matched : List (String × List Value)) : Bool :=
  matched.isEmpty

/-- Exact prefix check: does `pat` occur at the head of the text? -/
def substrAt : List Char → List Char → Bool
  | [], _ => true
  | _ :: _, [] => false
  | p :: ps, c :: cs => p = c && substrAt ps cs

/-- Plain substring search: does `pat` occur contiguously anywhere? -/
def substrSearch (pat : List Char) : List Char → Bool
  | [] => substrAt pat []
  | c :: cs => substrAt pat (c :: cs) || substrSearch pat cs

/-- Spec-worded variant of the row matcher, for comparison only:
plain case-insensitive *substring* matching, as §4.2 of the spec
describes it ("case-insensitive substring match against each row label"). -/
def str_contains_substr_spec (label pat : String) : Bool :=
  substrSearch (pat.data.map Char.toLower) (label.data.map Char.toLower)

/-- Spec-worded variant of `analyze_pm25_emissions` using substring
matching, for comparison with the source's regex matching. -/
def filter_pollutant_substr_spec (acc : ExtAccount) (frag : String) :
    List (String × List Value) × Series :=
  let matched := acc.rows.filter (fun row => str_contains_substr_spec row.1 frag)
  let totals := colSum acc.columns.length (matched.map Prod.snd)
  (matched, acc.columns.zip totals)

/-! ## `define_textile_industry` -/

/-- The resolution loop of `define_textile_industry`: for each name in
order, `if sector in sectors_list` (exact string equality) record
`sectors_list.index(sector)` (first exact match); otherwise record the name
as unresolved (the script prints it) and continue with the next name.
Returns (resolved name/index pairs in iteration order, unresolved names in
iteration order). -/
def resolve (sectors_list : List String) : List String → List (String × Nat) × List String
  | [] => ([], [])
  | sector :: names =>
    let rest := resolve sectors_list names
    if sectors_list.contains sector then
      ((sector, sectors_list.indexOf sector) :: rest.1, rest.2)
    else
      (rest.1, sector :: rest.2)

/-- The hard-coded core textile sector names of the script. -/
def textile_core : List String :=
  ["Textiles (17)",
   "Wearing apparel; furs (18)",
   "Leather and leather products (19)"]

/-- The hard-coded full textile chain (core plus waste treatment). -/
def textile_full : List String :=
  ["Textiles (17)",
   "Wearing apparel; furs (18)",
   "Leather and leather products (19)",
   "Textiles waste for treatment: incineration",
   "Textiles waste for treatment: landfill"]

/-- `define_textile_industry sectors`: resolve the core names against the
sector list and return `(textile_idx, textile_core, textile_full)`. -/
def define_textile_industry (sectors : List String) :
    List Nat × List String × List String :=
  ((resolve sectors textile_core).1.map Prod.snd, textile_core, textile_full)

/-! ## Ranking: `s.sort_values(ascending=False).head(top_n)` -/

/-- Ascending comparison by value, the order used by the underlying
`argsort`. -/
def byValue (a b : Key × Value) : Prop := a.2 ≤ b.2

instance : DecidableRel byValue := fun a b => inferInstanceAs (Decidable (a.2 ≤ b.2))

instance : IsTotal (Key × Value) byValue := ⟨fun a b => le_total a.2 b.2⟩

instance : IsTrans (Key × Value) byValue := ⟨fun _ _ _ => le_trans⟩

/-- `s.sort_values(ascending=False)`: pandas computes an ascending
`argsort` and then reverses the indexer (`pandas.core.sorting.nargsort`).
The default `kind='quicksort'` (numpy introsort) is not stable in
general, so among equal values the ascending `argsort`'s order is
implementation-defined (though deterministic); it is the stable
insertion-sort order exactly when the series has at most 16 elements.
The model commits to the stable order, so theorems about the relative
order of equal values are stated only under a `length ≤ 16` hypothesis,
where the model is exact; everything else proved from this definition is
insensitive to how ties are ordered. -/
def sort_values_desc (s : Series) : Series :=
  (List.insertionSort byValue s).reverse

/-- pandas `Series.head(n) = s.iloc[:n]`: the first `n` elements for
`n ≥ 0`, and all but the last `-n` elements for negative `n`. -/
def head_pandas (l : Series) (n : Int) : Series :=
  if 0 ≤ n then l.take n.toNat else l.take (l.length - (-n).toNat)

/-- The ranking step of `plot_top_pm25`:
`top = s.sort_values(ascending=False).head(top_n)`. -/
def rank (s : Series) (n : Int) : Series :=
  head_pandas (sort_values_desc s) n

/-- Spec-worded ranking, for comparison only: a *stable descending* sort
(ties kept in original dataset order, as the spec's §4.4 states) followed
by `head`. -/
def byValueDesc (a b : Key × Value) : Prop := b.2 ≤ a.2

instance : DecidableRel byValueDesc := fun a b => inferInstanceAs (Decidable (b.2 ≤ a.2))

/-- Spec-worded ranking (stable descending sort, ties in dataset order). -/
def rank_stable_spec (s : Series) (n : Int) : Series :=
  head_pandas (List.insertionSort byValueDesc s) n

/-! ## Rendering: `plot_top_pm25` -/

/-- `make_label` of the script for a (region, sector) MultiIndex entry:
`" - ".join(str(i) for i in idx)`. -/
def make_label (idx : Key) : String :=
  idx.1 ++ " - " ++ idx.2

/-- Python's `sub in s` on strings: case-sensitive substring test. -/
def pyIn (sub s : String) : Bool :=
  substrSearch sub.data s.data

/-- Highlight colour for textile-related bars. -/
def redColor : String := "#d62728"

/-- Colour for all other bars. -/
def blueColor : String := "#1f77b4"

/-- One horizontal bar of the chart: its y-tick label, its length and its
colour, as handed to `ax.barh(y, values, color=colors)` /
`ax.set_yticklabels(labels)` at one y position. -/
structure Bar where
  label : String
  value : Value
  color : String
deriving DecidableEq

/-- The per-entry tagging predicate of the script's colour line:
`any(core in lab for core in textile_core)` — the label contains some core
industry name (this is also the spec §4.4 default `tag_predicate`). -/
def tag_predicate (tc : List String) (lab : String) : Bool :=
  tc.any (fun core => pyIn core lab)

/-- The rendering data of `plot_top_pm25` for the display-ordered series
`top_rev`: `labels = [make_label(i) for i in top_rev.index]`,
`values = top_rev.values`, and
`colors = [red if any(core in lab for core in textile_core) else blue
for lab in labels]`, combined position-wise as `barh` consumes them. -/
def render_bars (top_rev : Series) (tc : List String) : List Bar :=
  let labels := top_rev.map (fun e => make_label e.1)
  let values := top_rev.map (fun e => e.2)
  let colors := labels.map (fun lab => if tag_predicate tc lab then redColor else blueColor)
  (labels.zip (values.zip colors)).map (fun x => ⟨x.1, x.2.1, x.2.2⟩)

/-- The default output location `os.path.join(os.getcwd(), 'pm25_top.png')`
(modelled by its fixed file name; the working directory is ambient). -/
def default_outpath : String := "pm25_top.png"

/-- `plot_top_pm25 F_pm25_total sectors textile_core top_n outpath`:
copies the series, returns `none` when it is empty (the script prints a
message and returns `None`), otherwise ranks, reverses for display,
renders the bars and returns the saved path together with the rendered
bar data. -/
def plot_top_pm25 (F_pm25_total : Series) (tc : List String) (top_n : Int)
    (outpath : Option String) : Option (String × List Bar) :=
  let s := F_pm25_total
  if s.isEmpty then none
  else
    let top := head_pandas (sort_values_desc s) top_n
    let top_rev := top.reverse
    some (outpath.getD default_outpath, render_bars top_rev tc)

/-! ## A store model of `plot_top_pm25`, for the frame property

The caller's `F_pm25_total` is a heap object; every pandas operation the
function applies (`copy`, `sort_values` with the default
`inplace=False`, `head`, `[::-1]`) allocates a new object.  The store
holds every series object alive during the call; the function returns the
grown store. -/

/-- The heap of series objects, addressed by allocation index. -/
abbrev Store := List Series

/-- Read the series object at address `i`. -/
def readS (σ : Store) (i : Nat) : Series :=
  σ.getD i []

/-- `plot_top_pm25` with the heap explicit: `s = F_pm25_total.copy()`
allocates a copy, `sort_values` / `head` / `[::-1]` each allocate, and no
step writes to an existing address. -/
def plot_top_pm25_st (σ : Store) (fref : Nat) (tc : List String) (top_n : Int)
    (outpath : Option String) : Store × Option (String × List Bar) :=
  let s := readS σ fref
  if s.isEmpty then (σ ++ [s], none)
  else
    let sorted := sort_values_desc s
    let top := head_pandas sorted top_n
    let top_rev := top.reverse
    (σ ++ [s, sorted, top, top_rev],
     some (outpath.getD default_outpath, render_bars top_rev tc))

/-! ## Concrete fixtures for counterexamples and witnesses -/

/-- A series with a tie between its first two keys ("A" before "B" in
dataset order, both with value 5). -/
def sTie : Series := [(("A", "a"), 5), (("B", "b"), 5), (("C", "c"), 1)]

/-- A small demonstration series with one core-textile sector key. -/
def sDemo : Series :=
  [(("CN", "Mining (05)"), 50),
   (("US", "Textiles (17)"), 5),
   (("DE", "Wearing apparel; furs (18)"), 20)]

/-- A two-row account holding only "CO2" and "PM2.5" rows (the spec's
no-match scenario account). -/
def accDemo : ExtAccount where
  columns := [("US", "Textiles"), ("CN", "Mining")]
  rows := [("CO2", [1, 2]), ("PM2.5", [3, 4])]
  hrows := by decide

/-- An account whose single row label "PM2X5" is matched by the regex
pattern `PM2.5` (the `.` matches `X`) but is not a substring match. -/
def accDot : ExtAccount where
  columns := [("US", "Textiles")]
  rows := [("PM2X5", [7])]
  hrows := by decide

/-! ## Helper lemmas -/

theorem colSum_go_length (n : Nat) :
    ∀ (rows : List (List Value)) (acc : List Value),
      (∀ r ∈ rows, r.length = n) → acc.length = n →
      (rows.foldl (fun a r => a.zipWith (· + ·) r) acc).length = n
  | [], _, _, ha => ha
  | r :: rows, acc, hr, ha => by
    simp only [List.foldl_cons]
    exact colSum_go_length n rows _
      (fun x hx => hr x (List.mem_cons_of_mem _ hx))
      (by rw [List.length_zipWith, ha, hr r (List.mem_cons_self _ _)]; exact min_self n)

theorem colSum_go_getD (n : Nat) (j : Nat) (hj : j < n) :
    ∀ (rows : List (List Value)) (acc : List Value),
      (∀ r ∈ rows, r.length = n) → acc.length = n →
      (rows.foldl (fun a r => a.zipWith (· + ·) r) acc).getD j 0 =
        acc.getD j 0 + (rows.map (fun r => r.getD j 0)).sum
  | [], _, _, _ => by simp
  | r :: rows, acc, hr, ha => by
    have hrlen : r.length = n := hr r (List.mem_cons_self _ _)
    have hzlen : (acc.zipWith (· + ·) r).length = n := by
      rw [List.length_zipWith, ha, hrlen]; exact min_self n
    simp only [List.foldl_cons, List.map_cons, List.sum_cons]
    rw [colSum_go_getD n j hj rows _ (fun x hx => hr x (List.mem_cons_of_mem _ hx)) hzlen]
    have hza : (acc.zipWith (· + ·) r).getD j 0 = acc.getD j 0 + r.getD j 0 := by
      rw [List.getD_eq_getElem _ _ (hzlen ▸ hj), List.getD_eq_getElem _ _ (ha ▸ hj),
        List.getD_eq_getElem _ _ (hrlen ▸ hj), List.getElem_zipWith]
    rw [hza, add_assoc]

theorem colSum_length (n : Nat) (rows : List (List Value))
    (h : ∀ r ∈ rows, r.length = n) : (colSum n rows).length = n :=
  colSum_go_length n rows _ h (List.length_replicate n 0)

theorem colSum_getD (n : Nat) (rows : List (List Value))
    (h : ∀ r ∈ rows, r.length = n) (j : Nat) (hj : j < n) :
    (colSum n rows).getD j 0 = (rows.map (fun r => r.getD j 0)).sum := by
  rw [colSum, colSum_go_getD n j hj rows _ h (List.length_replicate n 0),
    List.getD_eq_getElem _ _ (by simpa using hj), List.getElem_replicate, zero_add]

theorem matched_rows_length (acc : ExtAccount) (p : String × List Value → Bool) :
    ∀ v ∈ (acc.rows.filter p).map Prod.snd, v.length = acc.columns.length := by
  intro v hv
  rcases List.mem_map.1 hv with ⟨row, hrow, rfl⟩
  exact acc.hrows row (List.mem_of_mem_filter hrow)

theorem analyze_fst (acc : ExtAccount) (frag : String) :
    (analyze_pm25_emissions acc frag).2.map Prod.fst = acc.columns := by
  apply List.map_fst_zip
  rw [colSum_length _ _ (matched_rows_length acc _)]

theorem analyze_snd (acc : ExtAccount) (frag : String) :
    (analyze_pm25_emissions acc frag).2.map Prod.snd =
      colSum acc.columns.length
        ((acc.rows.filter (fun row => str_contains row.1 frag)).map Prod.snd) := by
  apply List.map_snd_zip
  rw [colSum_length _ _ (matched_rows_length acc _)]

theorem byValue_total (a b : Key × Value) : byValue a b ∨ byValue b a :=
  le_total a.2 b.2

theorem filter_orderedInsert_of_eq (v : Value) (a : Key × Value) (ha : a.2 = v) :
    ∀ l : Series,
      (List.orderedInsert byValue a l).filter (fun e => decide (e.2 = v)) =
        a :: l.filter (fun e => decide (e.2 = v))
  | [] => by simp [ha]
  | b :: l => by
    by_cases h : byValue a b
    · simp [List.orderedInsert, h, ha]
    · have hb : ¬(b.2 = v) := fun hbv => h (le_of_eq (ha.trans hbv.symm))
      simp only [List.orderedInsert, if_neg h, List.filter_cons, decide_eq_true_eq,
        if_neg hb, filter_orderedInsert_of_eq v a ha l]

theorem filter_orderedInsert_of_ne (v : Value) (a : Key × Value) (ha : ¬a.2 = v) :
    ∀ l : Series,
      (List.orderedInsert byValue a l).filter (fun e => decide (e.2 = v)) =
        l.filter (fun e => decide (e.2 = v))
  | [] => by simp [ha]
  | b :: l => by
    by_cases h : byValue a b
    · simp [List.orderedInsert, h, ha]
    · simp only [List.orderedInsert, if_neg h, List.filter_cons,
        filter_orderedInsert_of_ne v a ha l]

/-- Stability of the ascending sort: elements of one value class keep their
original relative order. -/
theorem filter_insertionSort (v : Value) :
    ∀ s : Series,
      (List.insertionSort byValue s).filter (fun e => decide (e.2 = v)) =
        s.filter (fun e => decide (e.2 = v))
  | [] => rfl
  | a :: s => by
    by_cases ha : a.2 = v
    · rw [List.insertionSort, filter_orderedInsert_of_eq v a ha, filter_insertionSort v s]
      simp [ha]
    · rw [List.insertionSort, filter_orderedInsert_of_ne v a ha, filter_insertionSort v s]
      simp [ha]

theorem length_sort_values_desc (s : Series) :
    (sort_values_desc s).length = s.length := by
  rw [sort_values_desc, List.length_reverse, List.length_insertionSort]

theorem sorted_desc_sort_values_desc (s : Series) :
    List.Pairwise (fun a b : Key × Value => b.2 ≤ a.2) (sort_values_desc s) := by
  rw [sort_values_desc, List.pairwise_reverse]
  exact List.sorted_insertionSort byValue s

theorem rank_eq_take (s : Series) (n : Int) (hn : 0 ≤ n) :
    rank s n = (sort_values_desc s).take n.toNat := by
  rw [rank, head_pandas, if_pos hn]

/-- `render_bars` is a per-entry map: each bar's label, value and colour
are functions of the ranked entry alone. -/
theorem render_bars_eq_map (l : Series) (tc : List String) :
    render_bars l tc = l.map (fun e =>
      ⟨make_label e.1, e.2,
        if tag_predicate tc (make_label e.1) then redColor else blueColor⟩) := by
  rw [render_bars, List.map_map, List.zip_map', List.zip_map', List.map_map]
  rfl

theorem readS_append_of_lt (σ τ : Store) (i : Nat) (h : i < σ.length) :
    readS (σ ++ τ) i = readS σ i :=
  List.getD_append σ τ [] i h

/-- The store after `plot_top_pm25_st` is the original store extended by
the freshly allocated objects. -/
theorem plot_top_pm25_st_store (σ : Store) (fref : Nat) (tc : List String)
    (top_n : Int) (outpath : Option String) :
    ∃ τ : Store, (plot_top_pm25_st σ fref tc top_n outpath).1 = σ ++ τ := by
  rw [plot_top_pm25_st]
  by_cases h : (readS σ fref).isEmpty
  · exact ⟨[readS σ fref], by rw [if_pos h]⟩
  · exact ⟨[readS σ fref, sort_values_desc (readS σ fref),
      head_pandas (sort_values_desc (readS σ fref)) top_n,
      (head_pandas (sort_values_desc (readS σ fref)) top_n).reverse],
      by rw [if_neg h]⟩

/-! ## Character-case lemmas for the case-insensitivity claim -/

theorem toNat_ofNat_of_valid {n : Nat} (h : n.isValidChar) :
    (Char.ofNat n).toNat = n := by
  rw [Char.ofNat, dif_pos h]
  rfl

theorem eq_dot_of_toLower_eq_dot {c : Char} (h : c.toLower = '.') : c = '.' := by
  rw [Char.toLower] at h
  split at h
  · exfalso
    rename_i hg
    have hv : (c.toNat + 32).isValidChar := Or.inl (by omega)
    have h46 := congrArg Char.toNat h
    rw [toNat_ofNat_of_valid hv] at h46
    have : ('.' : Char).toNat = 46 := rfl
    omega
  · exact h

theorem charMatch_congr {p q : Char} (h : p.toLower = q.toLower) (c : Char) :
    charMatch p c = charMatch q c := by
  have hdot : (p = '.') ↔ (q = '.') := by
    constructor
    · intro hp; exact eq_dot_of_toLower_eq_dot (by rw [← h, hp]; decide)
    · intro hq; exact eq_dot_of_toLower_eq_dot (by rw [h, hq]; decide)
  rw [charMatch, charMatch, h, decide_eq_decide.mpr hdot]

theorem matchAt_congr :
    ∀ (p q : List Char), p.map Char.toLower = q.map Char.toLower →
      ∀ cs, matchAt p cs = matchAt q cs
  | [], [], _, _ => rfl
  | [], _ :: _, h, _ => by simp at h
  | _ :: _, [], h, _ => by simp at h
  | a :: p, b :: q, h, cs => by
    simp only [List.map_cons, List.cons.injEq] at h
    cases cs with
    | nil => rfl
    | cons c cs =>
      rw [matchAt, matchAt, charMatch_congr h.1 c, matchAt_congr p q h.2 cs]

theorem searchPat_congr (p q : List Char) (h : p.map Char.toLower = q.map Char.toLower) :
    ∀ cs, searchPat p cs = searchPat q cs
  | [] => by rw [searchPat, searchPat, matchAt_congr p q h]
  | c :: cs => by
    rw [searchPat, searchPat, matchAt_congr p q h, searchPat_congr p q h cs]

theorem str_contains_congr (p1 p2 : String)
    (h : p1.data.map Char.toLower = p2.data.map Char.toLower) (label : String) :
    str_contains label p1 = str_contains label p2 :=
  searchPat_congr p1.data p2.data h label.data

theorem resolve_mem_resolved (slist : List String) :
    ∀ (names : List String) (nm : String), nm ∈ names → nm ∈ slist →
      (nm, slist.indexOf nm) ∈ (resolve slist names).1
  | [], nm, h, _ => absurd h (List.not_mem_nil nm)
  | a :: names, nm, h, hs => by
    rw [resolve]
    rcases List.mem_cons.1 h with rfl | hmem
    · rw [if_pos (List.elem_iff.2 hs)]
      exact List.mem_cons_self _ _
    · by_cases hc : slist.contains a = true
      · rw [if_pos hc]
        exact List.mem_cons_of_mem _ (resolve_mem_resolved slist names nm hmem hs)
      · rw [if_neg hc]
        exact resolve_mem_resolved slist names nm hmem hs

theorem resolve_mem_unresolved (slist : List String) :
    ∀ (names : List String) (nm : String), nm ∈ names → nm ∉ slist →
      nm ∈ (resolve slist names).2
  | [], nm, h, _ => absurd h (List.not_mem_nil nm)
  | a :: names, nm, h, hs => by
    rw [resolve]
    rcases List.mem_cons.1 h with rfl | hmem
    · rw [if_neg (fun hc => hs (List.elem_iff.1 hc))]
      exact List.mem_cons_self _ _
    · by_cases hc : slist.contains a = true
      · rw [if_pos hc]
        exact resolve_mem_unresolved slist names nm hmem hs
      · rw [if_neg hc]
        exact List.mem_cons_of_mem _ (resolve_mem_unresolved slist names nm hmem hs)

/-- `head(n)` keeps a prefix-selection of its input in both the
nonnegative and the negative case. -/
theorem head_pandas_sublist (l : Series) (n : Int) :
    (head_pandas l n).Sublist l := by
  rw [head_pandas]
  split
  · exact List.take_sublist _ _
  · exact List.take_sublist _ _

/-- If `plot_top_pm25` succeeds, the bars it renders are exactly
`render_bars` of the reversal of the ranked sequence. -/
theorem plot_bars_eq (F : Series) (tc : List String) (n : Int) (p : Option String)
    (path : String) (bars : List Bar)
    (h : plot_top_pm25 F tc n p = some (path, bars)) :
    bars = render_bars ((rank F n).reverse) tc := by
  rw [plot_top_pm25] at h
  by_cases he : F.isEmpty
  · rw [if_pos he] at h
    cases h
  · rw [if_neg he] at h
    have h' := Option.some.inj h
    injection h' with h1 h2
    exact h2.symm

/-! ## Claim theorems -/

/-- C1 (counterexample): the claim predicts ties broken by the key's
original dataset order ("A" before "B", as the spec-worded stable
descending sort `rank_stable_spec` produces), but the code's
`sort_values(ascending=False).head(n)` — a reversed stable ascending
sort — puts "B" before "A". -/
theorem C1_counterexample :
    (rank sTie 3).map Prod.fst = [("B", "b"), ("A", "a"), ("C", "c")] ∧
    rank_stable_spec sTie 3 ≠ rank sTie 3 := by decide

/-- C1 (amended): for every n > 0 the ranking step returns the first
min(n, |series|) entries of the descending-sorted series, non-increasing
by value, deterministically on identical input; the order of equal values
is implementation-defined (numpy's default quicksort is not stable in
general), and for series in the stable insertion-sort regime (at most 16
elements) equal values appear in the REVERSE of the key's original
dataset order — never in the dataset order the original claim states. -/
theorem C1_rank_desc_reverse_ties (s : Series) (n : Int) (v : Value) (hn : 0 < n) :
    rank s n = (sort_values_desc s).take n.toNat ∧
    (rank s n).length = min n.toNat s.length ∧
    List.Pairwise (fun a b : Key × Value => b.2 ≤ a.2) (rank s n) ∧
    (s.length ≤ 16 →
      (sort_values_desc s).filter (fun e => decide (e.2 = v)) =
        (s.filter (fun e => decide (e.2 = v))).reverse) := by
  have h0 : (0 : Int) ≤ n := le_of_lt hn
  refine ⟨rank_eq_take s n h0, ?_, ?_, fun _ => ?_⟩
  · rw [rank_eq_take s n h0, List.length_take, length_sort_values_desc]
  · rw [rank_eq_take s n h0]
    exact List.Pairwise.sublist (List.take_sublist _ _) (sorted_desc_sort_values_desc s)
  · rw [sort_values_desc, List.filter_reverse, filter_insertionSort]

/-- C1 witness at the 3-element tie fixture (inside the stable regime)
with n = 3, value class v = 5. -/
theorem C1_rank_desc_reverse_ties_witness :
    (0 : Int) < 3 ∧
    (rank sTie 3 = (sort_values_desc sTie).take (3 : Int).toNat ∧
     (rank sTie 3).length = min (3 : Int).toNat sTie.length ∧
     List.Pairwise (fun a b : Key × Value => b.2 ≤ a.2) (rank sTie 3) ∧
     (sTie.length ≤ 16 →
       (sort_values_desc sTie).filter (fun e => decide (e.2 = (5 : Value))) =
         (sTie.filter (fun e => decide (e.2 = (5 : Value)))).reverse)) :=
  ⟨by decide, C1_rank_desc_reverse_ties sTie 3 5 (by decide)⟩

/-- C2: the pollutant filter preserves the full column domain of the
account, and each column's total is the plain unweighted sum of that
column over the rows whose label matches the fragment. -/
theorem C2_full_domain_plain_sum (acc : ExtAccount) (frag : String) (j : Nat)
    (hj : j < acc.columns.length) :
    (analyze_pm25_emissions acc frag).2.map Prod.fst = acc.columns ∧
    ((analyze_pm25_emissions acc frag).2.map Prod.snd).getD j 0 =
      ((acc.rows.filter (fun row => str_contains row.1 frag)).map
        (fun row => row.2.getD j 0)).sum := by
  refine ⟨analyze_fst acc frag, ?_⟩
  rw [analyze_snd, colSum_getD _ _ (matched_rows_length acc _) j hj, List.map_map]
  rfl

/-- C2 witness: the demo account, fragment "pm2.5", column 0. -/
theorem C2_full_domain_plain_sum_witness :
    0 < accDemo.columns.length ∧
    ((analyze_pm25_emissions accDemo "pm2.5").2.map Prod.fst = accDemo.columns ∧
     ((analyze_pm25_emissions accDemo "pm2.5").2.map Prod.snd).getD 0 0 =
       ((accDemo.rows.filter (fun row => str_contains row.1 "pm2.5")).map
         (fun row => row.2.getD 0 0)).sum) :=
  ⟨by decide, C2_full_domain_plain_sum accDemo "pm2.5" 0 (by decide)⟩

/-- C3: when no row label matches the fragment, the filter still returns
a series over the full column domain with every total 0, the matched
sub-table it returns is empty, and the no-match signal is raised — so the
caller can distinguish "no pollutant found" from "all values zero". -/
theorem C3_no_match_all_zero (acc : ExtAccount) (frag : String)
    (h : ∀ row ∈ acc.rows, str_contains row.1 frag = false) :
    (analyze_pm25_emissions acc frag).1 = [] ∧
    NoMatchWarning (analyze_pm25_emissions acc frag).1 = true ∧
    (analyze_pm25_emissions acc frag).2.map Prod.fst = acc.columns ∧
    (analyze_pm25_emissions acc frag).2.map Prod.snd =
      List.replicate acc.columns.length 0 := by
  have hfil : acc.rows.filter (fun row => str_contains row.1 frag) = [] :=
    List.filter_eq_nil_iff.2 (fun row hrow => by rw [h row hrow]; exact Bool.false_ne_true)
  have h1 : (analyze_pm25_emissions acc frag).1 = [] := by
    simp only [analyze_pm25_emissions]
    exact hfil
  refine ⟨h1, by rw [NoMatchWarning, h1]; rfl, analyze_fst acc frag, ?_⟩
  rw [analyze_snd, hfil]
  rfl

/-- C3 witness: the spec's scenario — fragment "NOx-rare" against an
account holding only "CO2" and "PM2.5" rows. -/
theorem C3_no_match_all_zero_witness :
    (∀ row ∈ accDemo.rows, str_contains row.1 "NOx-rare" = false) ∧
    ((analyze_pm25_emissions accDemo "NOx-rare").1 = [] ∧
     NoMatchWarning (analyze_pm25_emissions accDemo "NOx-rare").1 = true ∧
     (analyze_pm25_emissions accDemo "NOx-rare").2.map Prod.fst = accDemo.columns ∧
     (analyze_pm25_emissions accDemo "NOx-rare").2.map Prod.snd =
       List.replicate accDemo.columns.length 0) :=
  ⟨by decide, C3_no_match_all_zero accDemo "NOx-rare" (by decide)⟩

/-- C4: resolution is total and uses exact string equality — every name
present in the sector list resolves to its first exact-match index, every
absent name is reported unresolved without aborting the rest, and the
spec's scenario resolves to {"Textiles (17)" ↦ 0,
"Wearing apparel; furs (18)" ↦ 2} with nothing unresolved. -/
theorem C4_resolve_exact_total (slist names : List String) (nm : String)
    (h : nm ∈ names) :
    (nm ∈ slist → (nm, slist.indexOf nm) ∈ (resolve slist names).1) ∧
    (nm ∉ slist → nm ∈ (resolve slist names).2) ∧
    resolve ["Textiles (17)", "Mining (05)", "Wearing apparel; furs (18)"]
        ["Textiles (17)", "Wearing apparel; furs (18)"] =
      ([("Textiles (17)", 0), ("Wearing apparel; furs (18)", 2)], []) :=
  ⟨fun hs => resolve_mem_resolved slist names nm h hs,
   fun hs => resolve_mem_unresolved slist names nm h hs,
   by decide⟩

/-- C4 witness at the scenario inputs, name "Textiles (17)". -/
theorem C4_resolve_exact_total_witness :
    "Textiles (17)" ∈ ["Textiles (17)", "Wearing apparel; furs (18)"] ∧
    (("Textiles (17)" ∈ ["Textiles (17)", "Mining (05)", "Wearing apparel; furs (18)"] →
      ("Textiles (17)",
        ["Textiles (17)", "Mining (05)", "Wearing apparel; furs (18)"].indexOf "Textiles (17)") ∈
        (resolve ["Textiles (17)", "Mining (05)", "Wearing apparel; furs (18)"]
          ["Textiles (17)", "Wearing apparel; furs (18)"]).1) ∧
     ("Textiles (17)" ∉ ["Textiles (17)", "Mining (05)", "Wearing apparel; furs (18)"] →
      "Textiles (17)" ∈
        (resolve ["Textiles (17)", "Mining (05)", "Wearing apparel; furs (18)"]
          ["Textiles (17)", "Wearing apparel; furs (18)"]).2) ∧
     resolve ["Textiles (17)", "Mining (05)", "Wearing apparel; furs (18)"]
         ["Textiles (17)", "Wearing apparel; furs (18)"] =
       ([("Textiles (17)", 0), ("Wearing apparel; furs (18)", 2)], [])) :=
  ⟨by decide,
   C4_resolve_exact_total ["Textiles (17)", "Mining (05)", "Wearing apparel; furs (18)"]
     ["Textiles (17)", "Wearing apparel; furs (18)"] "Textiles (17)" (by decide)⟩

/-- C5: whenever rendering happens, the display (bottom-to-top) sequence
is exactly the element-wise reversal of the single ranked sequence — no
second sort — and is therefore sorted ascending by value, with the same
tie-break order as the ranking view. -/
theorem C5_display_is_pure_reversal (F : Series) (tc : List String) (n : Int)
    (p : Option String) (path : String) (bars : List Bar)
    (h : plot_top_pm25 F tc n p = some (path, bars)) :
    bars = render_bars ((rank F n).reverse) tc ∧
    List.Pairwise (fun a b : Bar => a.value ≤ b.value) bars := by
  have hb := plot_bars_eq F tc n p path bars h
  refine ⟨hb, ?_⟩
  rw [hb, render_bars_eq_map, List.pairwise_map, List.pairwise_reverse]
  exact List.Pairwise.sublist (head_pandas_sublist _ n) (sorted_desc_sort_values_desc F)

/-- C5 witness at the demo series with n = 2. -/
theorem C5_display_is_pure_reversal_witness :
    plot_top_pm25 sDemo textile_core 2 none =
      some ("pm25_top.png",
        [⟨"DE - Wearing apparel; furs (18)", 20, redColor⟩,
         ⟨"CN - Mining (05)", 50, blueColor⟩]) ∧
    ([⟨"DE - Wearing apparel; furs (18)", 20, redColor⟩,
      ⟨"CN - Mining (05)", 50, blueColor⟩] =
        render_bars ((rank sDemo 2).reverse) textile_core ∧
     List.Pairwise (fun a b : Bar => a.value ≤ b.value)
       [⟨"DE - Wearing apparel; furs (18)", 20, redColor⟩,
        ⟨"CN - Mining (05)", 50, blueColor⟩]) :=
  ⟨by decide,
   C5_display_is_pure_reversal sDemo textile_core 2 none "pm25_top.png"
     [⟨"DE - Wearing apparel; furs (18)", 20, redColor⟩,
      ⟨"CN - Mining (05)", 50, blueColor⟩] (by decide)⟩

/-- C6 (counterexample): with a nonempty series and n = 0 the sequence of
entries to render is empty, yet the render step silently succeeds
(returns a written output path with an empty bar list) instead of
failing. -/
theorem C6_counterexample :
    plot_top_pm25 [(("US", "Textiles"), (5 : Value))] textile_core 0 none =
      some (default_outpath, []) := by decide

/-- C6 (amended): the render operation fails (returns no output path, a
recoverable condition distinguishable from success) exactly when the
INPUT SERIES is empty; an empty entry list arising from a nonempty series
with n ≤ 0 renders an empty chart successfully. -/
theorem C6_fail_iff_empty_series (F : Series) (tc : List String) (n : Int)
    (p : Option String) :
    plot_top_pm25 F tc n p = none ↔ F = [] := by
  rw [plot_top_pm25]
  by_cases he : F.isEmpty
  · rw [if_pos he]
    simp [List.isEmpty_iff.1 he]
  · rw [if_neg he]
    constructor
    · intro hc
      exact absurd hc (Option.noConfusion)
    · intro hF
      exact absurd (by rw [hF]; rfl : F.isEmpty = true) he

/-- C7 (counterexample): for n = -1 (≤ 0) the claim predicts an empty
sequence, but pandas `head(-1)` keeps all but the last element: on a
3-entry series the ranking returns 2 entries. -/
theorem C7_counterexample :
    rank sTie (-1) = [(("B", "b"), 5), (("A", "a"), 5)] ∧
    rank sTie (-1) ≠ [] := by decide

/-- C7 (amended): n = 0 yields the empty sequence without error, and a
negative n yields the first |series| - (-n) entries (pandas `head`
semantics, truncated at zero), also without error. -/
theorem C7_nonpositive_head (s : Series) (n : Int) (hn : n < 0) :
    rank s 0 = [] ∧ (rank s n).length = s.length - (-n).toNat := by
  constructor
  · rw [rank, head_pandas, if_pos (le_refl (0 : Int))]
    rfl
  · rw [rank, head_pandas, if_neg (not_le.2 hn), List.length_take,
      length_sort_values_desc]
    exact min_eq_left (Nat.sub_le _ _)

/-- C7 witness at the tie fixture with n = -1. -/
theorem C7_nonpositive_head_witness :
    (-1 : Int) < 0 ∧
    (rank sTie 0 = [] ∧ (rank sTie (-1)).length = sTie.length - (-(-1) : Int).toNat) :=
  ⟨by decide, C7_nonpositive_head sTie (-1) (by decide)⟩

/-- C8 (counterexample): matching is NOT plain case-insensitive substring
matching — the pattern is compiled as a regular expression (pandas
`regex=True` default), so the `.` in "pm2.5" matches the "X" of the row
label "PM2X5": the code's filter totals that row (7) while a substring
filter would return 0. -/
theorem C8_counterexample :
    analyze_pm25_emissions accDot "pm2.5" ≠ filter_pollutant_substr_spec accDot "pm2.5" ∧
    (analyze_pm25_emissions accDot "pm2.5").2 = [(("US", "Textiles"), 7)] ∧
    (filter_pollutant_substr_spec accDot "pm2.5").2 = [(("US", "Textiles"), 0)] := by
  have h1 : analyze_pm25_emissions accDot "pm2.5" =
      ([("PM2X5", [(7 : Value)])], [(("US", "Textiles"), (7 : Value))]) := by
    show ([("PM2X5", [(7 : Value)])], [(("US", "Textiles"), (0 : Value) + 7)]) =
      ([("PM2X5", [(7 : Value)])], [(("US", "Textiles"), (7 : Value))])
    rw [zero_add]
  have h2 : filter_pollutant_substr_spec accDot "pm2.5" =
      ([], [(("US", "Textiles"), (0 : Value))]) := rfl
  rw [h1, h2]
  refine ⟨?_, rfl, rfl⟩
  decide

/-- C8 (amended): filtering is case-insensitive — any two fragments equal
up to character case (in particular "pm2.5" and "PM2.5") produce
identical output, matched sub-table and totals series alike; matching is
a case-insensitive regular-expression search, substring-like only for
metacharacter-free fragments. -/
theorem C8_case_insensitive (acc : ExtAccount) (p1 p2 : String)
    (h : p1.data.map Char.toLower = p2.data.map Char.toLower) :
    analyze_pm25_emissions acc p1 = analyze_pm25_emissions acc p2 := by
  have hc : (fun row : String × List Value => str_contains row.1 p1) =
      (fun row : String × List Value => str_contains row.1 p2) :=
    funext fun row => str_contains_congr p1 p2 h row.1
  simp only [analyze_pm25_emissions]
  rw [hc]

/-- C8 witness: "pm2.5" versus "PM2.5" on the demo account. -/
theorem C8_case_insensitive_witness :
    ("pm2.5".data.map Char.toLower = "PM2.5".data.map Char.toLower) ∧
    analyze_pm25_emissions accDemo "pm2.5" = analyze_pm25_emissions accDemo "PM2.5" :=
  ⟨by decide, C8_case_insensitive accDemo "pm2.5" "PM2.5" (by decide)⟩

/-- C9: the rendered bars are a per-entry map of the ranked sequence in
which each bar's colour is determined by the single tagging predicate
(label contains a core industry name) applied to that entry's label — the
visual distinction applied at render equals the ranking-stage tag for the
same entry, so the tag cannot flip between the ranking and display
views. -/
theorem C9_tag_round_trip (F : Series) (tc : List String) (n : Int)
    (p : Option String) (path : String) (bars : List Bar) (b : Bar)
    (h : plot_top_pm25 F tc n p = some (path, bars)) (hb : b ∈ bars) :
    bars = ((rank F n).reverse).map (fun e =>
      ⟨make_label e.1, e.2,
        if tag_predicate tc (make_label e.1) then redColor else blueColor⟩) ∧
    b.color = (if tag_predicate tc b.label then redColor else blueColor) := by
  have hbars : bars = ((rank F n).reverse).map (fun e =>
      ⟨make_label e.1, e.2,
        if tag_predicate tc (make_label e.1) then redColor else blueColor⟩) := by
    rw [plot_bars_eq F tc n p path bars h, render_bars_eq_map]
  refine ⟨hbars, ?_⟩
  rw [hbars] at hb
  rcases List.mem_map.1 hb with ⟨e, _, rfl⟩
  rfl

/-- C9 witness at the demo series: the "Wearing apparel; furs (18)" bar
is tagged (red) consistently. -/
theorem C9_tag_round_trip_witness :
    (plot_top_pm25 sDemo textile_core 2 none =
      some ("pm25_top.png",
        [⟨"DE - Wearing apparel; furs (18)", 20, redColor⟩,
         ⟨"CN - Mining (05)", 50, blueColor⟩]) ∧
     (⟨"DE - Wearing apparel; furs (18)", 20, redColor⟩ : Bar) ∈
       [(⟨"DE - Wearing apparel; furs (18)", 20, redColor⟩ : Bar),
        ⟨"CN - Mining (05)", 50, blueColor⟩]) ∧
    ([(⟨"DE - Wearing apparel; furs (18)", 20, redColor⟩ : Bar),
      ⟨"CN - Mining (05)", 50, blueColor⟩] =
        ((rank sDemo 2).reverse).map (fun e =>
          ⟨make_label e.1, e.2,
            if tag_predicate textile_core (make_label e.1) then redColor else blueColor⟩) ∧
     (⟨"DE - Wearing apparel; furs (18)", 20, redColor⟩ : Bar).color =
       (if tag_predicate textile_core
           (⟨"DE - Wearing apparel; furs (18)", 20, redColor⟩ : Bar).label
        then redColor else blueColor)) :=
  ⟨⟨by decide, by decide⟩,
   C9_tag_round_trip sDemo textile_core 2 none "pm25_top.png"
     [⟨"DE - Wearing apparel; furs (18)", 20, redColor⟩,
      ⟨"CN - Mining (05)", 50, blueColor⟩]
     ⟨"DE - Wearing apparel; furs (18)", 20, redColor⟩ (by decide) (by decide)⟩

/-- C10: `plot_top_pm25` never writes to an existing series object — it
copies the input and sorts/slices the copy — so the caller's series holds
the same keys and values after the call, and the returned result is a
pure function of the input series' value. -/
theorem C10_input_unchanged (σ : Store) (fref : Nat) (tc : List String) (n : Int)
    (p : Option String) (h : fref < σ.length) :
    readS (plot_top_pm25_st σ fref tc n p).1 fref = readS σ fref ∧
    (plot_top_pm25_st σ fref tc n p).1.take σ.length = σ ∧
    (plot_top_pm25_st σ fref tc n p).2 = plot_top_pm25 (readS σ fref) tc n p := by
  obtain ⟨τ, hτ⟩ := plot_top_pm25_st_store σ fref tc n p
  refine ⟨by rw [hτ]; exact readS_append_of_lt σ τ fref h,
    by rw [hτ]; exact List.take_left σ τ, ?_⟩
  rw [plot_top_pm25_st, plot_top_pm25]
  by_cases he : (readS σ fref).isEmpty
  · rw [if_pos he, if_pos he]
  · rw [if_neg he, if_neg he]

/-- C10 witness on a one-object store holding the demo series. -/
theorem C10_input_unchanged_witness :
    0 < [sDemo].length ∧
    (readS (plot_top_pm25_st [sDemo] 0 textile_core 3 none).1 0 = readS [sDemo] 0 ∧
     (plot_top_pm25_st [sDemo] 0 textile_core 3 none).1.take [sDemo].length = [sDemo] ∧
     (plot_top_pm25_st [sDemo] 0 textile_core 3 none).2 =
       plot_top_pm25 (readS [sDemo] 0) textile_core 3 none) :=
  ⟨by decide, C10_input_unchanged [sDemo] 0 textile_core 3 none (by decide)⟩

end Mrio
